import Mathlib

/-!
Verification development for the `eleicoes-eletronicas` electronic-election
scripts (`src/gs/Planilha.js`).  The definitions below are shallow embeddings
of the pure cores of the Apps Script functions: sheet reads/writes become
explicit arguments and returned values, JS strings become `String`, JS numbers
become `Nat`/`Int`, and the signed byte arrays returned by the platform hash
primitive become `List Nat` of values below 256.
-/

namespace Eleicoes

/-- JS `String.prototype.trim`: drops leading and trailing whitespace.
Implemented over the character list (core `String.trim` does not reduce in the
kernel); `Char.isWhitespace` covers the ASCII whitespace found in sheet data. -/
def jsTrim (s : String) : String :=
  ⟨((s.data.dropWhile Char.isWhitespace).reverse.dropWhile Char.isWhitespace).reverse⟩

/-- Embeds `normalizeId` (Planilha.js): trims the id and removes one leading
apostrophe.  JS: `String(id || '').trim().replace(/^'/, '')` — `replace` with a
non-global `^'` pattern removes at most one leading quote character. -/
def normalizeId (id : String) : String :=
  match (jsTrim id).data with
  | [] => ""
  | c :: rest => if c = '\'' then ⟨rest⟩ else ⟨c :: rest⟩

/-- A row of the `chaves_publicas` snapshot: `{pub_key, is_active}` as built by
`getKeysMap` (Planilha.js). -/
structure KeyRec where
  pub_key : String
  is_active : Bool
deriving DecidableEq, Repr

/-- Lookup in the snapshot map.  `getKeysMap` fills a JS object so a later row
with the same id overwrites an earlier one; `reverse.find?` reproduces that
last-binding-wins behaviour. -/
def lookupKey (snap : List (String × KeyRec)) (id : String) : Option KeyRec :=
  (snap.reverse.find? (fun p => p.1 = id)).map (·.2)

/-- Embeds the credential classification shared by `revalidateAllVotes`
(lines 156-170) and `processResponse_` (lines 189-197) of Planilha.js:

```js
let status = 'Inválidas - ID Incorreto';
if (keyData) {
  if (subPub === keyData.pub_key) {
    status = keyData.is_active ? 'Válidas' : 'Inválidas - Chave Privada Inativada';
  } else {
    status = 'Inválidas - Chave Privada Incorreta';
  }
}
```
-/
def classifyCredential (keyData : Option KeyRec) (subPub : String) : String :=
  match keyData with
  | none => "Inválidas - ID Incorreto"
  | some kd =>
    if subPub = kd.pub_key then
      if kd.is_active then "Válidas" else "Inválidas - Chave Privada Inativada"
    else
      "Inválidas - Chave Privada Incorreta"

/-- The per-row body of `revalidateAllVotes`: look the submitted id up in the
snapshot and classify against the stored recomputed public key. -/
def validateSubmission (snap : List (String × KeyRec)) (subId subPub : String) : String :=
  classifyCredential (lookupKey snap (normalizeId subId)) subPub

/-- Embeds `dedupePreserve` (Planilha.js lines 1393-1400) with the JS `Set`
`seen` modelled as the list of values inserted so far:

```js
const seen = new Set();
const out = [];
for (const a of arr) {
  if (!seen.has(a)) { seen.add(a); out.push(a); }
}
return out;
```
-/
def dedupeAux (seen : List String) : List String → List String
  | [] => []
  | a :: rest =>
    if a ∈ seen then dedupeAux seen rest
    else a :: dedupeAux (a :: seen) rest

/-- `dedupePreserve` starts with an empty `seen` set. -/
def dedupePreserve (arr : List String) : List String :=
  dedupeAux [] arr

/-! ### HashEngine: `Utilities.computeHmacSha256Signature` and `calculatePubKey`

`calculatePubKey` (Planilha.js lines 67-71) calls the Apps Script platform
primitive `Utilities.computeHmacSha256Signature(privKey, masterKey)`, which
returns the HMAC-SHA256 (RFC 2104 over SHA-256, FIPS 180-4) of the UTF-8 bytes
of `privKey` keyed by the UTF-8 bytes of `masterKey`, as an array of 32 bytes.
The primitive is not part of the repository, so it is modelled here by a
complete executable implementation of SHA-256 and HMAC over `List Nat` byte
lists (each byte in `0..255`; JS signed bytes are re-read through `& 0xff`
by the hex formatter, mirrored by `% 256` below). -/

/-- UTF-8 encoding of one code point (the byte layout used by the platform for
JS strings handed to `computeHmacSha256Signature`). -/
def utf8Bytes (c : Char) : List Nat :=
  let n := c.toNat
  if n < 0x80 then [n]
  else if n < 0x800 then [0xc0 + n / 64, 0x80 + n % 64]
  else if n < 0x10000 then [0xe0 + n / 4096, 0x80 + n / 64 % 64, 0x80 + n % 64]
  else [0xf0 + n / 0x40000, 0x80 + n / 4096 % 64, 0x80 + n / 64 % 64, 0x80 + n % 64]

/-- UTF-8 bytes of a string. -/
def strBytes (s : String) : List Nat :=
  (s.data.map utf8Bytes).flatten

/-- 2^32, the word modulus of SHA-256 arithmetic. -/
def M32 : Nat := 4294967296

/-- Right rotation of a 32-bit word. -/
def rotr (w n : Nat) : Nat :=
  (w / 2 ^ n + w % 2 ^ n * 2 ^ (32 - n)) % M32

/-- SHA-256 big Sigma-0. -/
def bSig0 (w : Nat) : Nat := rotr w 2 ^^^ rotr w 13 ^^^ rotr w 22

/-- SHA-256 big Sigma-1. -/
def bSig1 (w : Nat) : Nat := rotr w 6 ^^^ rotr w 11 ^^^ rotr w 25

/-- SHA-256 small sigma-0. -/
def sSig0 (w : Nat) : Nat := rotr w 7 ^^^ rotr w 18 ^^^ (w >>> 3)

/-- SHA-256 small sigma-1. -/
def sSig1 (w : Nat) : Nat := rotr w 17 ^^^ rotr w 19 ^^^ (w >>> 10)

/-- SHA-256 choice function; 32-bit complement is xor with `2^32 - 1`. -/
def chF (x y z : Nat) : Nat := (x &&& y) ^^^ ((x ^^^ (M32 - 1)) &&& z)

/-- SHA-256 majority function. -/
def majF (x y z : Nat) : Nat := (x &&& y) ^^^ (x &&& z) ^^^ (y &&& z)

/-- The eight SHA-256 working words. -/
structure Hash8 where
  w0 : Nat
  w1 : Nat
  w2 : Nat
  w3 : Nat
  w4 : Nat
  w5 : Nat
  w6 : Nat
  w7 : Nat
deriving Repr

/-- SHA-256 initial hash value (FIPS 180-4 §5.3.3). -/
def initH : Hash8 :=
  ⟨1779033703, 3144134277, 1013904242, 2773480762,
   1359893119, 2600822924, 528734635, 1541459225⟩

/-- SHA-256 round constants (FIPS 180-4 §4.2.2). -/
def K256 : List Nat :=
  [1116352408, 1899447441, 3049323471, 3921009573,
   961987163, 1508970993, 2453635748, 2870763221,
   3624381080, 310598401, 607225278, 1426881987,
   1925078388, 2162078206, 2614888103, 3248222580,
   3835390401, 4022224774, 264347078, 604807628,
   770255983, 1249150122, 1555081692, 1996064986,
   2554220882, 2821834349, 2952996808, 3210313671,
   3336571891, 3584528711, 113926993, 338241895,
   666307205, 773529912, 1294757372, 1396182291,
   1695183700, 1986661051, 2177026350, 2456956037,
   2730485921, 2820302411, 3259730800, 3345764771,
   3516065817, 3600352804, 4094571909, 275423344,
   430227734, 506948616, 659060556, 883997877,
   958139571, 1322822218, 1537002063, 1747873779,
   1955562222, 2024104815, 2227730452, 2361852424,
   2428436474, 2756734187, 3204031479, 3329325298]

/-- Iterate a function `n` times. -/
def iterN (f : α → α) : Nat → α → α
  | 0, a => a
  | n + 1, a => iterN f n (f a)

/-- One step of the message-schedule extension: append word
`σ1(w[t-2]) + w[t-7] + σ0(w[t-15]) + w[t-16] mod 2^32`. -/
def extendStep (ws : List Nat) : List Nat :=
  let len := ws.length
  ws ++ [(sSig1 (ws.getD (len - 2) 0) + ws.getD (len - 7) 0 +
          sSig0 (ws.getD (len - 15) 0) + ws.getD (len - 16) 0) % M32]

/-- Extend a 16-word block to the 64-word message schedule. -/
def messageSchedule (block : List Nat) : List Nat :=
  iterN extendStep 48 block

/-- One SHA-256 compression round for round constant and schedule word `kw`. -/
def roundStep (st : Hash8) (kw : Nat × Nat) : Hash8 :=
  let t1 := (st.w7 + bSig1 st.w4 + chF st.w4 st.w5 st.w6 + kw.1 + kw.2) % M32
  let t2 := (bSig0 st.w0 + majF st.w0 st.w1 st.w2) % M32
  { w0 := (t1 + t2) % M32, w1 := st.w0, w2 := st.w1, w3 := st.w2,
    w4 := (st.w3 + t1) % M32, w5 := st.w4, w6 := st.w5, w7 := st.w6 }

/-- Compress one 16-word block into the running hash state. -/
def compressBlock (st : Hash8) (block : List Nat) : Hash8 :=
  let e := (K256.zip (messageSchedule block)).foldl roundStep st
  { w0 := (st.w0 + e.w0) % M32, w1 := (st.w1 + e.w1) % M32,
    w2 := (st.w2 + e.w2) % M32, w3 := (st.w3 + e.w3) % M32,
    w4 := (st.w4 + e.w4) % M32, w5 := (st.w5 + e.w5) % M32,
    w6 := (st.w6 + e.w6) % M32, w7 := (st.w7 + e.w7) % M32 }

/-- Group bytes into big-endian 32-bit words (the input length is always a
multiple of 4 after padding). -/
def bytesToWords : List Nat → List Nat
  | b0 :: b1 :: b2 :: b3 :: rest =>
    (b0 * 2 ^ 24 + b1 * 2 ^ 16 + b2 * 2 ^ 8 + b3) :: bytesToWords rest
  | _ => []

/-- Split the word list into 16-word blocks. -/
def wordsToBlocks (ws : List Nat) : List (List Nat) :=
  if h : ws = [] then []
  else ws.take 16 :: wordsToBlocks (ws.drop 16)
termination_by ws.length
decreasing_by
  have hpos : 0 < ws.length := List.length_pos.mpr h
  simp only [List.length_drop]
  omega

/-- Big-endian 8-byte encoding of the message bit length. -/
def lenBytes8 (n : Nat) : List Nat :=
  [n / 2 ^ 56 % 256, n / 2 ^ 48 % 256, n / 2 ^ 40 % 256, n / 2 ^ 32 % 256,
   n / 2 ^ 24 % 256, n / 2 ^ 16 % 256, n / 2 ^ 8 % 256, n % 256]

/-- SHA-256 padding: append `0x80`, zeros, and the 64-bit bit length, reaching
a multiple of 64 bytes. -/
def padMessage (msg : List Nat) : List Nat :=
  let len := msg.length
  let zeros := (64 - (len + 9) % 64) % 64
  msg ++ 0x80 :: List.replicate zeros 0 ++ lenBytes8 (len * 8)

/-- Big-endian bytes of one hash word. -/
def wordBytes (w : Nat) : List Nat :=
  [w / 2 ^ 24 % 256, w / 2 ^ 16 % 256, w / 2 ^ 8 % 256, w % 256]

/-- SHA-256 of a byte list, as 32 bytes. -/
def sha256bytes (msg : List Nat) : List Nat :=
  let st := (wordsToBlocks (bytesToWords (padMessage msg))).foldl compressBlock initH
  wordBytes st.w0 ++ wordBytes st.w1 ++ wordBytes st.w2 ++ wordBytes st.w3 ++
  wordBytes st.w4 ++ wordBytes st.w5 ++ wordBytes st.w6 ++ wordBytes st.w7

/-- HMAC-SHA256 (RFC 2104): block size 64 bytes, inner pad `0x36`, outer pad
`0x5c`. -/
def hmacSha256 (key msg : List Nat) : List Nat :=
  let k0 := if key.length > 64 then sha256bytes key else key
  let kPad := k0 ++ List.replicate (64 - k0.length) 0
  sha256bytes ((kPad.map (· ^^^ 0x5c)) ++
    sha256bytes ((kPad.map (· ^^^ 0x36)) ++ msg))

/-- Model of `Utilities.computeHmacSha256Signature(value, key)`: HMAC-SHA256 of
the UTF-8 bytes of `value` keyed by the UTF-8 bytes of `key`. -/
def computeHmacSha256Signature (value key : String) : List Nat :=
  hmacSha256 (strBytes key) (strBytes value)

/-- Embeds the JS byte-to-hex step
`('0' + (byte & 0xff).toString(16)).slice(-2)`: two lowercase hex digits of
the byte.  `Nat.digitChar` yields lowercase `a`-`f` exactly like
`Number.prototype.toString(16)`. -/
def byteToHex (b : Nat) : String :=
  let v := b % 256
  ⟨[Nat.digitChar (v / 16), Nat.digitChar (v % 16)]⟩

/-- Embeds `calculatePubKey` (Planilha.js lines 67-71):

```js
function calculatePubKey(privKey, masterKey) {
  if (!privKey || !masterKey) return '';
  const bytes = Utilities.computeHmacSha256Signature(privKey, masterKey);
  return bytes.map(byte => ('0' + (byte & 0xff).toString(16)).slice(-2)).join('');
}
```
For string arguments `!x` is truth-y exactly on the empty string. -/
def calculatePubKey (privKey masterKey : String) : String :=
  if privKey = "" ∨ masterKey = "" then ""
  else String.join ((computeHmacSha256Signature privKey masterKey).map byteToHex)

/-! ### The SHA-256 validation module (`keys_hash` custom functions) -/

/-- JS `String.prototype.toUpperCase`, over the character list.  `Char.toUpper`
maps `a`-`z` to `A`-`Z`; the non-ASCII case foldings of JS do not arise in
these claims. -/
def jsUpper (s : String) : String :=
  ⟨s.data.map Char.toUpper⟩

/-- Embeds `normalizePrivate_` (Planilha.js lines 1309-1315):

```js
return String(text).toUpperCase().replace(/\s+/g, '').replace(/[^A-Z]/g, '');
```
Stripping whitespace and then every character outside `A`-`Z` is one filter to
`A`-`Z` (whitespace is outside `A`-`Z`). -/
def normalizePrivate_ (text : String) : String :=
  ⟨((jsUpper text).data).filter (fun c => 'A' ≤ c ∧ c ≤ 'Z')⟩

/-- Embeds `sha256Hex` (Planilha.js lines 1318-1323): normalize, return `''`
on an empty normalized secret, else SHA-256 in uppercase hex. -/
def sha256Hex (text : String) : String :=
  let cleaned := normalizePrivate_ text
  if cleaned = "" then ""
  else jsUpper (String.join ((sha256bytes (strBytes cleaned)).map byteToHex))

/-- Last-binding-wins lookup in a string-to-string JS object (the
`loadKeysHashMap` result, passed explicitly). -/
def lookupStr (m : List (String × String)) (k : String) : Option String :=
  (m.reverse.find? (fun p => p.1 = k)).map (·.2)

/-- Embeds `VALIDAR_CHAVES` (Planilha.js lines 1353-1360), with the
`keys_hash` map an explicit argument:

```js
const p = String(pub || '').trim();
const s = String(priv || '').trim();
if (!p || !s) return 'INVÁLIDO';
const computed = sha256Hex(s);
const expected = loadKeysHashMap()[p] || '';
return (computed && expected && computed === expected) ? 'VÁLIDO' : 'INVÁLIDO';
```
-/
def VALIDAR_CHAVES (keysMap : List (String × String)) (pub priv : String) : String :=
  let p := jsTrim pub
  let s := jsTrim priv
  if p = "" ∨ s = "" then "INVÁLIDO"
  else
    let computed := sha256Hex s
    let expected := (lookupStr keysMap p).getD ""
    if computed ≠ "" ∧ expected ≠ "" ∧ computed = expected then "VÁLIDO" else "INVÁLIDO"

/-! ### `getMasterKey` and `processResponse_` -/

/-- Embeds `getMasterKey` (Planilha.js lines 24-28).  The script property `MK`
is the explicit argument (`none` when unset); `!MK` is also true for the empty
string.  A JS `throw` becomes `Except.error`. -/
def getMasterKey (mkProp : Option String) : Except String String :=
  match mkProp with
  | none => Except.error "MK (Master Key) não configurada em ScriptProperties. Abortando."
  | some mk =>
    if mk = "" then
      Except.error "MK (Master Key) não configurada em ScriptProperties. Abortando."
    else Except.ok mk

/-- Embeds the status computed by `processResponse_` (Planilha.js lines
177-202).  The `try`/`catch` is modelled exactly: an error thrown by
`getMasterKey` is caught and converted into the written status
`Inválidas - Erro Interno (<message>)`; otherwise the trimmed submitted secret
is hashed with `calculatePubKey` and classified against the snapshot.
(`getFromNamedValues` trims the raw form values; the recomputed key is written
to column C before the status, which this value-level model omits.) -/
def processResponseStatus (mkProp : Option String) (idRaw privRaw : String)
    (snap : List (String × KeyRec)) : String :=
  match getMasterKey mkProp with
  | Except.error msg => "Inválidas - Erro Interno (" ++ msg ++ ")"
  | Except.ok mk =>
    let userId := normalizeId (jsTrim idRaw)
    let privKey := jsTrim privRaw
    classifyCredential (lookupKey snap userId) (calculatePubKey privKey mk)

/-! ### DeduplicationEngine: `generateValidationSheet` (Planilha.js 212-325) -/

/-- One response-sheet row, with the columns used by
`generateValidationSheet`: timestamp, id (column B), recomputed public key
(column C), credential status (column D), the executive ranking cells (between
`Credenciais` and the fiscal column), and the raw fiscal free-text cell. -/
structure RespRow where
  ts : String
  idRaw : String
  pubKeyRaw : String
  credRaw : String
  execCells : List String
  fiscalRaw : String
deriving DecidableEq, Repr

/-- The executive ranking collected from the row:
`const v = String(row[j] || '').trim(); if (v) execVotos.push(v);`. -/
def execVotosOf (r : RespRow) : List String :=
  (r.execCells.map jsTrim).filter (· ≠ "")

/-- One output row of the `validacao_automatica` sheet. -/
structure ValOut where
  ts : String
  userId : String
  pubKey : String
  credStatus : String
  preenchimento : String
  contador : Nat
  finalStatus : String
  execStr : String
  fiscalStr : String
deriving DecidableEq, Repr

/-- `validContentCounter[userId] || 0` on the per-id counter object. -/
def lookupCount (m : List (String × Nat)) (k : String) : Nat :=
  ((m.reverse.find? (fun p => p.1 = k)).map (·.2)).getD 0

/-- `validContentCounter[userId] = v`: update in place, insert if absent. -/
def setCount (m : List (String × Nat)) (k : String) (v : Nat) : List (String × Nat) :=
  if m.any (fun p => p.1 = k) then m.map (fun p => if p.1 = k then (p.1, v) else p)
  else m ++ [(k, v)]

/-- The status string marking a countable vote
(`APURACAO_STATUS` in Planilha.js). -/
def APURACAO_STATUS : String := "VÁLIDO - Credenciais Válidas - Voto Válido"

/-- JS `.replace(/, /g, ',\n')` used on the fiscal cell. -/
def replaceCommaSpace : List Char → List Char
  | ',' :: ' ' :: rest => ',' :: '\n' :: replaceCommaSpace rest
  | c :: rest => c :: replaceCommaSpace rest
  | [] => []

/-- String-level wrapper of `replaceCommaSpace`. -/
def jsReplaceCommaSpace (s : String) : String :=
  ⟨replaceCommaSpace s.data⟩

/-- JS `Array.prototype.join(sep)`, over the character lists so that it
evaluates in the kernel. -/
def jsJoin (sep : String) (l : List String) : String :=
  ⟨((l.intersperse sep).map String.data).flatten⟩

/-- The row loop of `generateValidationSheet` (Planilha.js 258-316), carrying
the per-id counter of credential-valid non-blank submissions:

```js
const userId = normalizeId(String(row[IDX_ID] || '').trim());
if (!userId) continue;
const credStatus = String(row[IDX_CRED] || '').trim();
const fiscalRaw = String(row[IDX_FISCAL] || '').trim();
...execVotos...
const hasContent = (execVotos.length > 0 || fiscalRaw);
const finalPreenchimento = hasContent ? 'Válido' : 'Branco';
let contador = 0;
const isCredValid = credStatus === 'Válidas';
const isCountable = isCredValid && finalPreenchimento === 'Válido';
if (isCountable) { validContentCounter[userId] = (validContentCounter[userId] || 0) + 1;
                   contador = validContentCounter[userId]; }
let finalStatus = 'INVÁLIDO';
if (!isCredValid) { finalStatus = `INVÁLIDO - Credenciais ` + credStatus; }
else if (finalPreenchimento === 'Branco') { finalStatus = 'INVÁLIDO - Credenciais Válidas - Voto Branco'; }
else if (contador === 1) { finalStatus = 'VÁLIDO - Credenciais Válidas - Voto Válido'; }
else { finalStatus = 'INVÁLIDO - Credenciais Válidas - Voto Repetido'; }
const execUnicos = Array.from(new Set(execVotos));
const execStr = (finalStatus === APURACAO_STATUS) ? execUnicos.join(',\n') : '';
const fiscalStr = (finalStatus === APURACAO_STATUS) ? fiscalRaw.replace(/, /g, ',\n') : '';
```
-/
def genValGo (counter : List (String × Nat)) : List RespRow → List ValOut
  | [] => []
  | r :: rest =>
    let userId := normalizeId (jsTrim r.idRaw)
    if userId = "" then genValGo counter rest
    else
      let credStatus := jsTrim r.credRaw
      let fiscalRaw := jsTrim r.fiscalRaw
      let execVotos := execVotosOf r
      let preench := if execVotos.length > 0 ∨ fiscalRaw ≠ "" then "Válido" else "Branco"
      let isCountable := credStatus = "Válidas" ∧ preench = "Válido"
      let contador := if isCountable then lookupCount counter userId + 1 else 0
      let counter' :=
        if isCountable then setCount counter userId (lookupCount counter userId + 1)
        else counter
      let finalStatus :=
        if ¬(credStatus = "Válidas") then "INVÁLIDO - Credenciais " ++ credStatus
        else if preench = "Branco" then "INVÁLIDO - Credenciais Válidas - Voto Branco"
        else if contador = 1 then "VÁLIDO - Credenciais Válidas - Voto Válido"
        else "INVÁLIDO - Credenciais Válidas - Voto Repetido"
      let execStr :=
        if finalStatus = APURACAO_STATUS then jsJoin ",\n" (dedupePreserve execVotos) else ""
      let fiscalStr :=
        if finalStatus = APURACAO_STATUS then jsReplaceCommaSpace fiscalRaw else ""
      { ts := r.ts, userId := userId, pubKey := jsTrim r.pubKeyRaw,
        credStatus := credStatus, preenchimento := preench, contador := contador,
        finalStatus := finalStatus, execStr := execStr,
        fiscalStr := fiscalStr } :: genValGo counter' rest

/-- `generateValidationSheet`'s data rows, starting from an empty counter.
(`Array.from(new Set(execVotos))` is insertion-order dedup, i.e.
`dedupePreserve`.) -/
def generateValidationRows (rows : List RespRow) : List ValOut :=
  genValGo [] rows

/-- A submission row is countable when its (trimmed) credential status is
`Válidas` and it has content in either race. -/
def countableRow (r : RespRow) : Prop :=
  jsTrim r.credRaw = "Válidas" ∧ (execVotosOf r ≠ [] ∨ jsTrim r.fiscalRaw ≠ "")

instance countableRowDec : DecidablePred countableRow := fun r => by
  unfold countableRow
  infer_instance

/-- Specification-level restatement of the final status, used to state the
amended claim C4: a row's status depends only on the row itself and on the
number `prior` of countable rows of the same id that arrived before it. -/
def specFinalStatus (r : RespRow) (prior : Nat) : String :=
  if ¬(jsTrim r.credRaw = "Válidas") then "INVÁLIDO - Credenciais " ++ jsTrim r.credRaw
  else if execVotosOf r = [] ∧ jsTrim r.fiscalRaw = "" then
    "INVÁLIDO - Credenciais Válidas - Voto Branco"
  else if prior = 0 then "VÁLIDO - Credenciais Válidas - Voto Válido"
  else "INVÁLIDO - Credenciais Válidas - Voto Repetido"

/-- Reference recursion for the statuses of a single-id arrival sequence,
threading the count of countable rows seen so far. -/
def specValGo (c : Nat) : List RespRow → List String
  | [] => []
  | r :: rest =>
    specFinalStatus r c :: specValGo (if countableRow r then c + 1 else c) rest

/-! ### TallyEngine: `generateApuracaoAutomatica` (Planilha.js 330-543) -/

/-- Split a character list at every separator character. -/
def splitOnPred (p : Char → Bool) : List Char → List (List Char)
  | [] => [[]]
  | c :: rest =>
    if p c then [] :: splitOnPred p rest
    else
      match splitOnPred p rest with
      | [] => [[c]]
      | g :: gs => (c :: g) :: gs

/-- Embeds `parseVotos` (Planilha.js 73-76):
`String(voteString).split(/,\n|,/g).map(n => n.trim()).filter(n => n.length > 0)`.
Splitting on `','` alone gives the same result: the `'\n'` that the regex
alternative would consume is leading whitespace of the next piece and is
removed by the `trim`. -/
def parseVotos (voteString : String) : List String :=
  ((splitOnPred (fun c => c = ',') voteString.data).map (fun cs => jsTrim ⟨cs⟩)).filter (· ≠ "")

/-- The rows of the `validacao_automatica` sheet that
`generateApuracaoAutomatica` reads back: columns G (status), H (executive
ranking) and I (fiscal selections). -/
structure TallyRow where
  status : String
  execRaw : String
  fiscalRaw : String
deriving DecidableEq, Repr

/-- The pipeline connection: the columns `generateApuracaoAutomatica` reads
are the `Validação`, `Conselho Executivo` and `Conselho Fiscal` cells written
by `generateValidationSheet`. -/
def tallyInput (resp : List RespRow) : List TallyRow :=
  (generateValidationRows resp).map (fun o => ⟨o.finalStatus, o.execStr, o.fiscalStr⟩)

/-- The executive candidate universe: every name parsed from every row's
executive cell, first-occurrence order (the JS `Set` insertion order).  The
code then sorts this list with a `pt-BR` locale collation before initialising
the stats map; the sort changes neither membership nor size, which is all the
scoring uses, and the final table order is fixed by the output comparator. -/
def execUniverse (rows : List TallyRow) : List String :=
  dedupePreserve ((rows.map (fun r => parseVotos r.execRaw)).flatten)

/-- The fiscal candidate universe, likewise. -/
def fiscalUniverse (rows : List TallyRow) : List String :=
  dedupePreserve ((rows.map (fun r => parseVotos r.fiscalRaw)).flatten)

/-- Per-candidate Borda statistics: `{ pontos, posCounts }`.  `pontos` is an
`Int` because the JS number can go negative (see claim C2). -/
structure ExecStat where
  pontos : Int
  posCounts : List Nat
deriving DecidableEq, Repr

/-- `execStats` initialisation:
`execStats.set(nome, { pontos: 0, posCounts: Array(N).fill(0) })`. -/
def initExecStats (univ : List String) (n : Nat) : List (String × ExecStat) :=
  univ.map (fun nome => (nome, ⟨0, List.replicate n 0⟩))

/-- `s.posCounts[i] += 1`. -/
def bumpPos (l : List Nat) (i : Nat) : List Nat :=
  l.set i (l.getD i 0 + 1)

/-- The body of the executive scoring loop for the candidate at 0-based rank
`i` (Planilha.js 449-461):

```js
if (!execStats.has(cand)) continue;
const s = execStats.get(cand);
const pontosGanhos = N_BORDA - i;
s.pontos += pontosGanhos;
if (i < N_POSICOES_MOSTRADAS_FINAL) { s.posCounts[i] += 1; }
```
(`N_POSICOES_MOSTRADAS_FINAL` equals `N_BORDA` at this point.) -/
def updateExec (n : Nat) (stats : List (String × ExecStat)) (i : Nat) (cand : String) :
    List (String × ExecStat) :=
  stats.map (fun p =>
    if p.1 = cand then
      (p.1, ⟨p.2.pontos + ((n : Int) - (i : Int)),
             if i < n then bumpPos p.2.posCounts i else p.2.posCounts⟩)
    else p)

/-- `for (let i = 0; i < lista.length; i++)` over one executive ballot. -/
def scoreExecGo (n : Nat) (i : Nat) (stats : List (String × ExecStat)) :
    List String → List (String × ExecStat)
  | [] => stats
  | cand :: rest => scoreExecGo n (i + 1) (updateExec n stats i cand) rest

/-- Score one executive ballot starting at rank 0.  Note the code does not
deduplicate here: `execVotosDedupe` is just `parseVotos(execVotosRaw)`. -/
def scoreExecBallot (n : Nat) (stats : List (String × ExecStat)) (lista : List String) :
    List (String × ExecStat) :=
  scoreExecGo n 0 stats lista

/-- The fiscal counting loop for one ballot (Planilha.js 464-469):

```js
const fiscalVotosDedupe = parseVotos(fiscalVotosRaw);
for (const cand of fiscalVotosDedupe) {
  if (!fiscalStats.has(cand)) continue;
  fiscalStats.set(cand, fiscalStats.get(cand) + 1);
}
```
(`fiscalVotosDedupe` is not actually deduplicated.) -/
def scoreFiscalBallot (stats : List (String × Nat)) (lista : List String) :
    List (String × Nat) :=
  lista.foldl
    (fun st cand => st.map (fun p => if p.1 = cand then (p.1, p.2 + 1) else p)) stats

/-- The executive tally over the countable rows
(`String(row[0] || '').trim() !== APURACAO_STATUS → continue`).  The source
interleaves the executive and fiscal updates in one loop; the two stats maps
are independent, so they are split into two folds. -/
def execTally (nBorda : Nat) (univ : List String) (rows : List TallyRow) :
    List (String × ExecStat) :=
  (rows.filter (fun r => jsTrim r.status = APURACAO_STATUS)).foldl
    (fun st r => scoreExecBallot nBorda st (parseVotos r.execRaw))
    (initExecStats univ nBorda)

/-- The fiscal tally over the countable rows. -/
def fiscalTally (univ : List String) (rows : List TallyRow) : List (String × Nat) :=
  (rows.filter (fun r => jsTrim r.status = APURACAO_STATUS)).foldl
    (fun st r => scoreFiscalBallot st (parseVotos r.fiscalRaw))
    (univ.map (fun nome => (nome, 0)))

/-- `pontos` of a candidate in the stats map. -/
def statPontos (stats : List (String × ExecStat)) (cand : String) : Option Int :=
  (stats.find? (fun p => p.1 = cand)).map (fun p => p.2.pontos)

/-- A cell of the output `Apuração` table: JS writes strings and numbers. -/
inductive Cell where
  | s (v : String)
  | i (v : Int)
  | n (v : Nat)
deriving DecidableEq, Repr

/-- Embeds `padRows` (Planilha.js 78-84): pad every row with `''` cells up to
`width`. -/
def padRowsC (rows : List (List Cell)) (width : Nat) : List (List Cell) :=
  rows.map (fun row => row ++ List.replicate (width - row.length) (Cell.s ""))

/-- The `#1 #2 ...` position headers. -/
def posHeaders (n : Nat) : List Cell :=
  (List.range n).map (fun i => Cell.s ("#" ++ toString (i + 1)))

/-- Embeds the `writeEmpty` closure (Planilha.js 357-374): the placeholder
table of titles and headers only (it reads the current value of
`N_POSICOES_MOSTRADAS`, passed here as `nPos`). -/
def writeEmptyTable (nPos : Nat) : List (List Cell) :=
  padRowsC
    [[Cell.s "Conselho Executivo (Pontos)"],
     [Cell.s "Candidato", Cell.s "Pontos"] ++ posHeaders nPos,
     [Cell.s ""],
     [Cell.s "Conselho Fiscal e de Ética (Votos)"],
     [Cell.s "Candidato", Cell.s "Votos"]]
    (nPos + 2)

/-- Stable insertion into a list sorted by the boolean comparator. -/
def insertBy (le : α → α → Bool) (a : α) : List α → List α
  | [] => [a]
  | b :: rest => if le a b then a :: b :: rest else b :: insertBy le a rest

/-- Stable insertion sort, modelling `Array.prototype.sort` (which is stable;
the comparators below are total up to equal keys). -/
def sortBy (le : α → α → Bool) (l : List α) : List α :=
  l.foldr (insertBy le) []

/-- First difference of two per-rank count vectors, compared descending. -/
def cmpPosDesc : List Nat → List Nat → Option Bool
  | x :: xs, y :: ys => if x ≠ y then some (decide (x > y)) else cmpPosDesc xs ys
  | _, _ => none

/-- The executive output comparator (Planilha.js 478-484): points descending,
then the per-rank counts lexicographically descending, then name ascending
(`localeCompare('pt-BR')` modelled as code-point order; the names in these
claims are ASCII). -/
def execLe (a b : String × ExecStat) : Bool :=
  if a.2.pontos ≠ b.2.pontos then decide (a.2.pontos > b.2.pontos)
  else
    match cmpPosDesc a.2.posCounts b.2.posCounts with
    | some r => r
    | none => decide (a.1 ≤ b.1)

/-- The fiscal output comparator: votes descending, then name ascending. -/
def fiscalLe (a b : String × Nat) : Bool :=
  if a.2 ≠ b.2 then decide (a.2 > b.2) else decide (a.1 ≤ b.1)

/-- One executive output row `[nome, s.pontos, ...s.posCounts]`. -/
def execRowCells (p : String × ExecStat) : List Cell :=
  Cell.s p.1 :: Cell.i p.2.pontos :: p.2.posCounts.map Cell.n

/-- Embeds the observable output of `generateApuracaoAutomatica`: the grid of
cells written to the `Apuração` sheet.  `cfg` models the parsed
`QTD_CANDIDATOS_EXEC` script property (`0` when unset, unparsable or
non-positive, exactly as the `parseInt` guard leaves `N_BORDA`); `sheet` is
`none` when the `validacao_automatica` sheet is missing.  The flow of the
mutable `N_BORDA` / `N_POSICOES_MOSTRADAS` variables across the two
`writeEmpty()` call sites is reproduced by the two distinct arguments. -/
def generateApuracao (cfg : Nat) (sheet : Option (List TallyRow)) : List (List Cell) :=
  let nPos0 := if cfg > 0 then cfg else 3
  match sheet with
  | none => writeEmptyTable nPos0
  | some rows =>
    if rows.length = 0 then writeEmptyTable nPos0
    else
      let execUniv := execUniverse rows
      let fiscalUniv := fiscalUniverse rows
      let nVotos := execUniv.length
      let nBorda := if cfg = 0 then nVotos else cfg
      if nVotos = 0 ∧ fiscalUniv.length = 0 then writeEmptyTable nBorda
      else
        let maxCols := nBorda + 2
        let execHeader := [Cell.s "Candidato", Cell.s "Pontos"] ++ posHeaders nBorda
        let execRows := sortBy execLe (execTally nBorda execUniv rows)
        let execTable := [Cell.s "Conselho Executivo (Pontos)"] :: execHeader ::
          execRows.map execRowCells
        let fiscalRows := sortBy fiscalLe (fiscalTally fiscalUniv rows)
        let fiscalTable := [Cell.s "Conselho Fiscal e de Ética (Votos)"] ::
          [Cell.s "Candidato", Cell.s "Votos"] ::
          fiscalRows.map (fun p => [Cell.s p.1, Cell.n p.2])
        padRowsC execTable maxCols ++ [List.replicate maxCols (Cell.s "")] ++
          padRowsC fiscalTable maxCols

/-! ### The custom scorecard functions (Planilha.js 1374-1649) -/

/-- Embeds `norm` (Planilha.js 1376-1383): trim, collapse internal whitespace
runs to one space, uppercase.  The JS chain also applies `NFKC`/`NFD`
normalization with combining-mark stripping (accent folding), which is the
identity on the ASCII names these claims use and is not modelled. -/
def collapseWsAux : Bool → List Char → List Char
  | _, [] => []
  | prevWs, c :: rest =>
    if c.isWhitespace then
      if prevWs then collapseWsAux true rest else ' ' :: collapseWsAux true rest
    else c :: collapseWsAux false rest

/-- `norm` at the string level. -/
def normName (x : String) : String :=
  jsUpper ⟨collapseWsAux false (jsTrim x).data⟩

/-- Embeds `parseList` (Planilha.js 1386-1390):
`String(cell).split(/[;,]\s*|\n+/).map(norm).filter(s)`.  Splitting at every
`,` `;` `\n` gives the same nonempty normalized pieces: the whitespace or
newline runs that the regex folds into the separator are removed by `norm`'s
trim, and the extra empty pieces are filtered. -/
def parseList (cell : String) : List String :=
  ((splitOnPred (fun c => c = ',' ∨ c = ';' ∨ c = '\n') cell.data).map
    (fun cs => normName ⟨cs⟩)).filter (· ≠ "")

/-- Embeds `buildOfficialSet` (Planilha.js 1437-1448): the normalized nonempty
names of the configured candidate range, insertion order. -/
def buildOfficialSet (intervalo : List String) : List String :=
  dedupePreserve ((intervalo.map normName).filter (· ≠ ""))

/-- Embeds `resolveUniverse`/`resolveUniverseFiscal` (Planilha.js 1451-1462):
the configured universe when one is given and nonempty, else the names
observed across all ballots.  Returns the universe and the
`source === 'oficial'` flag; `n` is the universe's length. -/
def resolveUniverse (intervalo : Option (List String)) (valores : List String) :
    List String × Bool :=
  let oficial := buildOfficialSet (intervalo.getD [])
  if oficial.length > 0 then (oficial, true)
  else (dedupePreserve ((valores.map parseList).flatten), false)

/-- The deduplicated ballot a scorecard function scores
(`const base = source === 'oficial' ? listaRaw.filter(nm => oficialSet.has(nm)) : listaRaw;`
`const lista = dedupePreserve(base);`). -/
def scorecardLista (univ : List String) (isOficial : Bool) (cel : String) : List String :=
  let listaRaw := parseList cel
  dedupePreserve (if isOficial then listaRaw.filter (· ∈ univ) else listaRaw)

/-- `stats.has`/`set` counting step of `FISCAL_SCORECARD_BY_COLNAME`
(Planilha.js 1638-1641): names outside the initialised universe are inserted
at zero first. -/
def addFiscalVote (st : List (String × Nat)) (cand : String) : List (String × Nat) :=
  if st.any (fun p => p.1 = cand) then
    st.map (fun p => if p.1 = cand then (p.1, p.2 + 1) else p)
  else st ++ [(cand, 1)]

/-- The stats map built by `FISCAL_SCORECARD_BY_COLNAME` (Planilha.js
1625-1648) before sorting and formatting: one vote per distinct name per
ballot. -/
def fiscalScorecardStats (valores : List String) (intervalo : Option (List String)) :
    List (String × Nat) :=
  let u := resolveUniverse intervalo valores
  valores.foldl
    (fun st cel => (scorecardLista u.1 u.2 cel).foldl addFiscalVote st)
    (u.1.map (fun nome => (nome, 0)))

theorem dedupeAux_congr (s₁ s₂ : List String) (l : List String)
    (h : ∀ x, x ∈ s₁ ↔ x ∈ s₂) : dedupeAux s₁ l = dedupeAux s₂ l := by
  induction l generalizing s₁ s₂ with
  | nil => rfl
  | cons a rest ih =>
    simp only [dedupeAux]
    by_cases ha : a ∈ s₁
    · rw [if_pos ha, if_pos ((h a).mp ha)]
      exact ih s₁ s₂ h
    · rw [if_neg ha, if_neg (fun hc => ha ((h a).mpr hc))]
      refine congrArg (a :: ·) (ih _ _ ?_)
      intro x
      simp only [List.mem_cons]
      exact or_congr Iff.rfl (h x)

theorem dedupeAux_sublist (seen : List String) (l : List String) :
    (dedupeAux seen l).Sublist l := by
  induction l generalizing seen with
  | nil => exact List.Sublist.refl []
  | cons a rest ih =>
    simp only [dedupeAux]
    by_cases ha : a ∈ seen
    · rw [if_pos ha]
      exact (ih seen).trans (List.sublist_cons_self a rest)
    · rw [if_neg ha]
      exact (ih (a :: seen)).cons₂ a

theorem dedupeAux_mem (seen : List String) (l : List String) (x : String) :
    x ∈ dedupeAux seen l ↔ x ∈ l ∧ x ∉ seen := by
  induction l generalizing seen with
  | nil => simp [dedupeAux]
  | cons a rest ih =>
    simp only [dedupeAux]
    by_cases ha : a ∈ seen
    · rw [if_pos ha, ih]
      constructor
      · rintro ⟨hx, hs⟩
        exact ⟨List.mem_cons_of_mem a hx, hs⟩
      · rintro ⟨hx, hs⟩
        rcases List.mem_cons.mp hx with rfl | hx
        · exact absurd ha hs
        · exact ⟨hx, hs⟩
    · rw [if_neg ha]
      simp only [List.mem_cons, ih, List.mem_cons, not_or]
      constructor
      · rintro (rfl | ⟨hx, hxa, hs⟩)
        · exact ⟨Or.inl rfl, ha⟩
        · exact ⟨Or.inr hx, hs⟩
      · rintro ⟨rfl | hx, hs⟩
        · exact Or.inl rfl
        · by_cases hxa : x = a
          · exact Or.inl hxa
          · exact Or.inr ⟨hx, hxa, hs⟩

theorem dedupeAux_nodup (seen : List String) (l : List String) :
    (dedupeAux seen l).Nodup := by
  induction l generalizing seen with
  | nil => exact List.nodup_nil
  | cons a rest ih =>
    simp only [dedupeAux]
    by_cases ha : a ∈ seen
    · rw [if_pos ha]; exact ih seen
    · rw [if_neg ha]
      refine List.Nodup.cons ?_ (ih (a :: seen))
      intro hmem
      exact ((dedupeAux_mem (a :: seen) rest a).mp hmem).2 (List.mem_cons_self a seen)

theorem dedupeAux_of_nodup (seen : List String) (l : List String)
    (hl : l.Nodup) (hd : ∀ x ∈ l, x ∉ seen) : dedupeAux seen l = l := by
  induction l generalizing seen with
  | nil => rfl
  | cons a rest ih =>
    simp only [dedupeAux]
    rw [if_neg (hd a (List.mem_cons_self a rest))]
    refine congrArg (a :: ·) (ih (a :: seen) (List.Nodup.of_cons hl) ?_)
    intro x hx
    intro hc
    rcases List.mem_cons.mp hc with rfl | hc
    · exact (List.nodup_cons.mp hl).1 hx
    · exact hd x (List.mem_cons_of_mem a hx) hc

theorem dedupeAux_cons_filter (a : String) (seen : List String) (l : List String) :
    dedupeAux (a :: seen) l = dedupeAux seen (l.filter (· ≠ a)) := by
  induction l generalizing seen with
  | nil => rfl
  | cons b rest ih =>
    by_cases hba : b = a
    · subst hba
      have h1 : dedupeAux (b :: seen) (b :: rest) = dedupeAux (b :: seen) rest := by
        simp [dedupeAux]
      have h2 : (b :: rest).filter (· ≠ b) = rest.filter (· ≠ b) := by
        simp [List.filter_cons]
      rw [h1, h2]
      exact ih seen
    · have h2 : (b :: rest).filter (· ≠ a) = b :: rest.filter (· ≠ a) := by
        simp [List.filter_cons, hba]
      rw [h2]
      by_cases hb : b ∈ seen
      · have hb' : b ∈ a :: seen := List.mem_cons_of_mem a hb
        have h1 : dedupeAux (a :: seen) (b :: rest) = dedupeAux (a :: seen) rest := by
          simp [dedupeAux, hb']
        have h3 : dedupeAux seen (b :: rest.filter (· ≠ a)) =
            dedupeAux seen (rest.filter (· ≠ a)) := by
          simp [dedupeAux, hb]
        rw [h1, h3]
        exact ih seen
      · have hb' : b ∉ a :: seen := by
          intro hc
          rcases List.mem_cons.mp hc with h | h
          · exact hba h
          · exact hb h
        have h1 : dedupeAux (a :: seen) (b :: rest) =
            b :: dedupeAux (b :: a :: seen) rest := by
          simp [dedupeAux, hb']
        have h3 : dedupeAux seen (b :: rest.filter (· ≠ a)) =
            b :: dedupeAux (b :: seen) (rest.filter (· ≠ a)) := by
          simp [dedupeAux, hb]
        rw [h1, h3]
        refine congrArg (b :: ·) ?_
        rw [dedupeAux_congr (b :: a :: seen) (a :: b :: seen) rest
          (by intro x; simp only [List.mem_cons]; tauto)]
        exact ih (b :: seen)

theorem sha256bytes_length (m : List Nat) : (sha256bytes m).length = 32 := by
  simp [sha256bytes, wordBytes]

theorem byteToHex_length (b : Nat) : (byteToHex b).length = 2 := rfl

theorem strJoin_length (L : List String) :
    (String.join L).length = (L.map String.length).sum := by
  rw [String.join_eq]
  show (List.flatten (L.map String.data)).length = _
  rw [List.length_flatten, List.map_map]
  rfl

theorem digitChar_hex (n : Nat) (h : n < 16) :
    Nat.digitChar n ∈ "0123456789abcdef".data := by
  have hall : ∀ m < 16, Nat.digitChar m ∈ "0123456789abcdef".data := by decide
  exact hall n h

theorem calculatePubKey_ne (priv mk : String) (hp : priv ≠ "") (hm : mk ≠ "") :
    (calculatePubKey priv mk).length = 64 := by
  rw [calculatePubKey, if_neg (by simp [hp, hm]), strJoin_length, List.map_map]
  have hmap : String.length ∘ byteToHex = fun _ => 2 := funext fun b => byteToHex_length b
  rw [hmap]
  have hlen : (computeHmacSha256Signature priv mk).length = 32 := sha256bytes_length _
  rw [List.map_const', hlen, List.sum_replicate]
  rfl

theorem calculatePubKey_hexChars (priv mk : String) (hp : priv ≠ "") (hm : mk ≠ "") :
    ∀ c ∈ (calculatePubKey priv mk).data, c ∈ "0123456789abcdef".data := by
  rw [calculatePubKey, if_neg (by simp [hp, hm])]
  intro c hc
  rw [String.data_join] at hc
  rcases List.mem_flatten.mp hc with ⟨l, hl, hcl⟩
  rw [List.map_map] at hl
  rcases List.mem_map.mp hl with ⟨b, _hb, rfl⟩
  have h2 : (String.data ∘ byteToHex) b =
      [Nat.digitChar (b % 256 / 16), Nat.digitChar (b % 256 % 16)] := rfl
  rw [h2] at hcl
  have hlt : b % 256 < 256 := Nat.mod_lt _ (by norm_num)
  rcases List.mem_cons.mp hcl with rfl | hcl
  · exact digitChar_hex _ (by omega)
  · rcases List.mem_cons.mp hcl with rfl | hcl
    · exact digitChar_hex _ (Nat.mod_lt _ (by norm_num))
    · exact absurd hcl (List.not_mem_nil c)

theorem filter_map_dropWhile_ws (p : Char → Bool)
    (hws : ∀ c : Char, c.isWhitespace = true → p c.toUpper = false) (l : List Char) :
    ((l.dropWhile Char.isWhitespace).map Char.toUpper).filter p =
      (l.map Char.toUpper).filter p := by
  induction l with
  | nil => rfl
  | cons c rest ih =>
    by_cases hc : c.isWhitespace
    · simp [List.dropWhile_cons, hc, List.filter_cons, hws c hc, ih]
    · simp [List.dropWhile_cons, hc]

theorem upper_ws_not_az (c : Char) (hc : c.isWhitespace = true) :
    (decide ('A' ≤ c.toUpper ∧ c.toUpper ≤ 'Z')) = false := by
  have hd : ((c = ' ' ∨ c = '\t') ∨ c = '\x0d') ∨ c = '\n' := by
    simpa [Char.isWhitespace] using hc
  rcases hd with ((rfl | rfl) | rfl) | rfl <;> decide

theorem normPriv_jsTrim (s : String) :
    normalizePrivate_ (jsTrim s) = normalizePrivate_ s := by
  simp only [normalizePrivate_, jsUpper, jsTrim]
  refine congrArg String.mk ?_
  rw [List.map_reverse, List.filter_reverse,
    filter_map_dropWhile_ws _ upper_ws_not_az,
    List.map_reverse, List.filter_reverse, List.reverse_reverse,
    filter_map_dropWhile_ws _ upper_ws_not_az]

theorem normPriv_of_trim_empty (s : String) (h : jsTrim s = "") :
    normalizePrivate_ s = "" := by
  rw [← normPriv_jsTrim, h]
  rfl

theorem sha256Hex_congr (r₁ r₂ : String)
    (h : normalizePrivate_ r₁ = normalizePrivate_ r₂) : sha256Hex r₁ = sha256Hex r₂ := by
  simp only [sha256Hex, h]

theorem nodup_subset_length {α : Type} [DecidableEq α] (l u : List α)
    (hn : l.Nodup) (hs : l ⊆ u) : l.length ≤ u.length := by
  calc l.length = l.toFinset.card := (List.toFinset_card_of_nodup hn).symm
  _ ≤ u.toFinset.card := Finset.card_le_card (fun x hx => by
      rw [List.mem_toFinset] at *
      exact hs hx)
  _ ≤ u.length := u.toFinset_card_le

theorem find?_fst_map {β γ : Type} (f : String × β → String × γ)
    (hf : ∀ p, (f p).1 = p.1) (l : List (String × β)) (k : String) :
    (l.map f).find? (fun p => p.1 = k) = (l.find? (fun p => p.1 = k)).map f := by
  induction l with
  | nil => rfl
  | cons p rest ih =>
    simp only [List.map_cons, List.find?_cons, hf p]
    by_cases hk : p.1 = k
    · simp [hk]
    · simp [hk, ih]

theorem lookupCount_setCount (m : List (String × Nat)) (k : String) (v : Nat) :
    lookupCount (setCount m k v) k = v := by
  unfold setCount
  by_cases hany : m.any (fun p => p.1 = k)
  · rw [if_pos hany]
    unfold lookupCount
    rw [← List.map_reverse,
      find?_fst_map (fun p => if p.1 = k then (p.1, v) else p)
        (fun p => by by_cases h : p.1 = k <;> simp [h]) m.reverse k]
    have hsome : (m.reverse.find? (fun p => p.1 = k)).isSome := by
      rw [List.find?_isSome]
      rcases List.any_eq_true.mp hany with ⟨p, hp, hpk⟩
      exact ⟨p, List.mem_reverse.mpr hp, hpk⟩
    rcases hfind : m.reverse.find? (fun p => p.1 = k) with _ | q
    · rw [hfind] at hsome
      exact absurd hsome (by simp)
    · have hq : q.1 = k := by simpa using List.find?_some hfind
      simp [hfind, hq]
  · rw [if_neg hany]
    unfold lookupCount
    rw [List.reverse_append]
    simp

theorem statPontos_updateExec (n : Nat) (stats : List (String × ExecStat))
    (i : Nat) (c cand : String) :
    statPontos (updateExec n stats i c) cand =
      if c = cand then (statPontos stats cand).map (fun v => v + ((n : Int) - (i : Int)))
      else statPontos stats cand := by
  unfold statPontos updateExec
  rw [find?_fst_map _ (fun p => by by_cases h : p.1 = c <;> simp [h]) stats cand]
  rcases hfind : stats.find? (fun p => p.1 = cand) with _ | p
  · by_cases hc : c = cand <;> simp [hc, hfind]
  · have hp : p.1 = cand := by simpa using List.find?_some hfind
    by_cases hc : c = cand
    · subst hc
      simp [hp, hfind]
    · have hpc : ¬(p.1 = c) := by rw [hp]; exact fun h => hc h.symm
      simp [hpc, hc, hfind]

theorem scoreExecGo_not_mem (n : Nat) (lista : List String) :
    ∀ (i0 : Nat) (stats : List (String × ExecStat)) (cand : String), cand ∉ lista →
      statPontos (scoreExecGo n i0 stats lista) cand = statPontos stats cand := by
  induction lista with
  | nil => intro i0 stats cand _; rfl
  | cons c rest ih =>
    intro i0 stats cand hn
    have hc : c ≠ cand := fun h => hn (h ▸ List.mem_cons_self c rest)
    have hr : cand ∉ rest := fun h => hn (List.mem_cons_of_mem c h)
    show statPontos (scoreExecGo n (i0 + 1) (updateExec n stats i0 c) rest) cand = _
    rw [ih (i0 + 1) _ cand hr, statPontos_updateExec, if_neg hc]

theorem scoreExecGo_get (n : Nat) (lista : List String) (hnd : lista.Nodup) :
    ∀ (j : Nat) (hj : j < lista.length) (i0 : Nat) (stats : List (String × ExecStat)),
      statPontos (scoreExecGo n i0 stats lista) (lista.get ⟨j, hj⟩) =
        (statPontos stats (lista.get ⟨j, hj⟩)).map
          (fun v => v + ((n : Int) - ((i0 : Int) + (j : Int)))) := by
  induction lista with
  | nil => intro j hj; exact absurd hj (by simp)
  | cons c rest ih =>
    intro j hj i0 stats
    rcases j with _ | j
    · show statPontos (scoreExecGo n (i0 + 1) (updateExec n stats i0 c) rest) c = _
      rw [scoreExecGo_not_mem n rest (i0 + 1) _ c (List.nodup_cons.mp hnd).1,
        statPontos_updateExec, if_pos rfl]
      congr 1
    · have hj' : j < rest.length := by simpa using hj
      have hget : (c :: rest).get ⟨j + 1, hj⟩ = rest.get ⟨j, hj'⟩ := rfl
      rw [hget]
      show statPontos (scoreExecGo n (i0 + 1) (updateExec n stats i0 c) rest) _ = _
      have hc : c ≠ rest.get ⟨j, hj'⟩ := by
        intro h
        exact (List.nodup_cons.mp hnd).1 (h ▸ rest.get_mem j hj')
      rw [ih (List.nodup_cons.mp hnd).2 j hj' (i0 + 1) _,
        statPontos_updateExec, if_neg hc]
      congr 1
      funext v
      push_cast
      ring

theorem genValGo_blank_cells :
    ∀ (rows : List RespRow) (counter : List (String × Nat)),
      ∀ o ∈ genValGo counter rows, o.finalStatus ≠ APURACAO_STATUS →
        o.execStr = "" ∧ o.fiscalStr = "" := by
  intro rows
  induction rows with
  | nil => intro counter o ho; exact absurd ho (List.not_mem_nil o)
  | cons r rest ih =>
    intro counter o ho hne
    rw [genValGo] at ho
    by_cases hid : normalizeId (jsTrim r.idRaw) = ""
    · rw [if_pos hid] at ho
      exact ih counter o ho hne
    · rw [if_neg hid] at ho
      simp only at ho
      rcases List.mem_cons.mp ho with rfl | ho

      · simp only at hne ⊢
        constructor
        · exact if_neg hne
        · exact if_neg hne
      · exact ih _ o ho hne

theorem specValGo_length (c : Nat) (rows : List RespRow) :
    (specValGo c rows).length = rows.length := by
  induction rows generalizing c with
  | nil => rfl
  | cons r rest ih => simp [specValGo, ih]

theorem specValGo_get (rows : List RespRow) :
    ∀ (c : Nat) (i : Nat) (hi : i < rows.length),
      (specValGo c rows).get ⟨i, by rw [specValGo_length]; exact hi⟩ =
        specFinalStatus (rows.get ⟨i, hi⟩)
          (c + ((rows.take i).filter (fun r => decide (countableRow r))).length) := by
  induction rows with
  | nil => intro c i hi; exact absurd hi (by simp)
  | cons r rest ih =>
    intro c i hi
    rcases i with _ | i
    · show specFinalStatus r c = specFinalStatus r (c + 0)
      rw [Nat.add_zero]
    · have hi' : i < rest.length := by simpa using hi
      show (specValGo (if countableRow r then c + 1 else c) rest).get
          ⟨i, by rw [specValGo_length]; exact hi'⟩ = _
      rw [ih (if countableRow r then c + 1 else c) i hi']
      have htake : ((r :: rest).take (i + 1)).filter (fun x => decide (countableRow x)) =
          ((r :: rest).filter (fun x => decide (countableRow x))).take 0 ++
            (r :: rest.take i).filter (fun x => decide (countableRow x)) := by
        simp [List.take_cons]
      congr 1
      by_cases hc : countableRow r
      · simp [hc, List.filter_cons, List.take_cons]
        omega
      · simp [hc, List.filter_cons, List.take_cons]

theorem genValGo_map_status (u : String) (hu : u ≠ "") :
    ∀ (rows : List RespRow) (counter : List (String × Nat)),
      (∀ r ∈ rows, normalizeId (jsTrim r.idRaw) = u) →
      (genValGo counter rows).map (fun o => o.finalStatus) =
        specValGo (lookupCount counter u) rows := by
  intro rows
  induction rows with
  | nil => intro counter _; rfl
  | cons r rest ih =>
    intro counter hall
    have hid : normalizeId (jsTrim r.idRaw) = u := hall r (List.mem_cons_self r rest)
    have hrest : ∀ x ∈ rest, normalizeId (jsTrim x.idRaw) = u :=
      fun x hx => hall x (List.mem_cons_of_mem r hx)
    rw [genValGo, hid, if_neg hu]
    by_cases hcred : jsTrim r.credRaw = "Válidas"
    · by_cases hcont : (execVotosOf r).length > 0 ∨ jsTrim r.fiscalRaw ≠ ""
      · have hcount : countableRow r := by
          refine ⟨hcred, ?_⟩
          rcases hcont with h | h
          · exact Or.inl (List.length_pos.mp h)
          · exact Or.inr h
        have hnotblank : ¬(execVotosOf r = [] ∧ jsTrim r.fiscalRaw = "") := by
          rcases hcont with h | h
          · exact fun hb => by rw [hb.1] at h; simp at h
          · exact fun hb => h hb.2
        have hcc : jsTrim r.credRaw = "Válidas" ∧
            (if (execVotosOf r).length > 0 ∨ jsTrim r.fiscalRaw ≠ "" then "Válido"
             else "Branco") = "Válido" := ⟨hcred, by simp [hcont]⟩
        simp only [List.map_cons, specValGo]
        by_cases hzero : lookupCount counter u = 0
        · congr 1
          · simp [hcred, hcont, hzero, specFinalStatus, hnotblank]
          · rw [if_pos hcc, if_pos hcount, ih _ hrest, lookupCount_setCount, hzero]
        · have h1 : lookupCount counter u + 1 ≠ 1 := by omega
          congr 1
          · simp [hcred, hcont, hzero, h1, specFinalStatus, hnotblank]
          · rw [if_pos hcc, if_pos hcount, ih _ hrest, lookupCount_setCount]
      · have hncount : ¬countableRow r := by
          intro hc
          rcases hc.2 with h | h
          · exact hcont (Or.inl (List.length_pos.mpr h))
          · exact hcont (Or.inr h)
        have hblank : execVotosOf r = [] ∧ jsTrim r.fiscalRaw = "" := by
          push_neg at hcont
          exact ⟨List.length_eq_zero.mp (Nat.le_zero.mp hcont.1), hcont.2⟩
        simp only [List.map_cons, specValGo]
        congr 1
        · simp [hcred, hcont, specFinalStatus, hblank]
        · rw [if_neg (fun hc => by simp [hcont] at hc),
            if_neg hncount, ih counter hrest]
    · have hncount : ¬countableRow r := fun hc => hcred hc.1
      simp only [List.map_cons, specValGo]
      congr 1
      · simp [hcred, specFinalStatus]
      · rw [if_neg (fun hc => hcred hc.1), if_neg hncount, ih counter hrest]

end Eleicoes

namespace Claims

open Eleicoes

/-- C1: the credential classification of a submission follows the exact
priority order of `revalidateAllVotes`/`processResponse_`: unknown id when the
snapshot has no record, wrong secret when the recomputed key differs from the
stored public key, revoked when they match but the record is inactive, and
valid otherwise.  In particular a recomputed key matching the stored key of an
inactive record always classifies as revoked. -/
theorem c1_classification_priority (snap : List (String × KeyRec)) (subId subPub : String) :
    (lookupKey snap (normalizeId subId) = none →
      validateSubmission snap subId subPub = "Inválidas - ID Incorreto") ∧
    (∀ rec, lookupKey snap (normalizeId subId) = some rec → subPub ≠ rec.pub_key →
      validateSubmission snap subId subPub = "Inválidas - Chave Privada Incorreta") ∧
    (∀ rec, lookupKey snap (normalizeId subId) = some rec → subPub = rec.pub_key →
      rec.is_active = false →
      validateSubmission snap subId subPub = "Inválidas - Chave Privada Inativada") ∧
    (∀ rec, lookupKey snap (normalizeId subId) = some rec → subPub = rec.pub_key →
      rec.is_active = true →
      validateSubmission snap subId subPub = "Válidas") := by
  refine ⟨?_, ?_, ?_, ?_⟩
  · intro h
    simp [validateSubmission, classifyCredential, h]
  · intro rec h hne
    simp [validateSubmission, classifyCredential, h, hne]
  · intro rec h he hact
    simp [validateSubmission, classifyCredential, h, he, hact]
  · intro rec h he hact
    simp [validateSubmission, classifyCredential, h, he, hact]

/-- Witness for C1: a submission whose recomputed key equals the stored public
key of an inactive record classifies as revoked, at a concrete snapshot. -/
theorem c1_classification_priority_witness :
    validateSubmission [("123456", ⟨"abcd", false⟩)] "123456" "abcd" =
      "Inválidas - Chave Privada Inativada" :=
  (c1_classification_priority [("123456", ⟨"abcd", false⟩)] "123456" "abcd").2.2.1
    ⟨"abcd", false⟩ (by rfl) (by rfl) (by rfl)

/-- C6: `calculatePubKey` returns the empty string whenever either input is
empty; for non-empty inputs it returns a 64-character string of lowercase
hexadecimal digits; and it is deterministic (equal inputs give equal
output). -/
theorem c6_calculatePubKey_contract (priv mk : String) :
    (priv = "" ∨ mk = "" → calculatePubKey priv mk = "") ∧
    (priv ≠ "" → mk ≠ "" →
      (calculatePubKey priv mk).length = 64 ∧
      ∀ c ∈ (calculatePubKey priv mk).data, c ∈ "0123456789abcdef".data) ∧
    (∀ p m : String, p = priv → m = mk → calculatePubKey p m = calculatePubKey priv mk) := by
  refine ⟨fun h => by rw [calculatePubKey, if_pos h], fun hp hm =>
    ⟨calculatePubKey_ne priv mk hp hm, calculatePubKey_hexChars priv mk hp hm⟩,
    fun p m hp hm => by rw [hp, hm]⟩

/-- Witness for C6 at concrete inputs. -/
theorem c6_calculatePubKey_contract_witness :
    calculatePubKey "" "MK" = "" ∧
    (calculatePubKey "A1B2C3D4E5F6" "MK").length = 64 ∧
    (∀ c ∈ (calculatePubKey "A1B2C3D4E5F6" "MK").data, c ∈ "0123456789abcdef".data) ∧
    calculatePubKey "A1B2C3D4E5F6" "MK" = calculatePubKey "A1B2C3D4E5F6" "MK" :=
  ⟨(c6_calculatePubKey_contract "" "MK").1 (Or.inl rfl),
   ((c6_calculatePubKey_contract "A1B2C3D4E5F6" "MK").2.1 (by decide) (by decide)).1,
   ((c6_calculatePubKey_contract "A1B2C3D4E5F6" "MK").2.1 (by decide) (by decide)).2,
   (c6_calculatePubKey_contract "A1B2C3D4E5F6" "MK").2.2 _ _ rfl rfl⟩

/-- C5 counterexample: the raw secrets `"1"` and `""` agree after
`normalizePrivate_` canonicalization (both become `""`), yet the HMAC
recomputation path of `processResponse_` gives them different recomputed
public keys and different credential classifications, because
`calculatePubKey` hashes the trimmed raw secret without that normalization. -/
theorem c5_counterexample :
    normalizePrivate_ "1" = normalizePrivate_ "" ∧
    calculatePubKey (jsTrim "1") "K" ≠ calculatePubKey (jsTrim "") "K" ∧
    processResponseStatus (some "K") "111111" "1"
        [("111111", ⟨calculatePubKey "1" "K", true⟩)] ≠
      processResponseStatus (some "K") "111111" ""
        [("111111", ⟨calculatePubKey "1" "K", true⟩)] := by
  have hne : calculatePubKey "1" "K" ≠ "" := by
    intro h
    have h64 := calculatePubKey_ne "1" "K" (by decide) (by decide)
    rw [h] at h64
    exact absurd h64 (by decide)
  have htrim1 : jsTrim "1" = "1" := rfl
  have htrim0 : jsTrim "" = "" := rfl
  have hempty : calculatePubKey "" "K" = "" := by
    rw [calculatePubKey, if_pos (Or.inl rfl)]
  refine ⟨by decide, ?_, ?_⟩
  · rw [htrim1, htrim0, hempty]
    exact hne
  · have hdefL : processResponseStatus (some "K") "111111" "1"
        [("111111", ⟨calculatePubKey "1" "K", true⟩)] =
        classifyCredential (some ⟨calculatePubKey "1" "K", true⟩)
          (calculatePubKey "1" "K") := rfl
    have hdefR : processResponseStatus (some "K") "111111" ""
        [("111111", ⟨calculatePubKey "1" "K", true⟩)] =
        classifyCredential (some ⟨calculatePubKey "1" "K", true⟩)
          (calculatePubKey "" "K") := rfl
    have hL : classifyCredential (some ⟨calculatePubKey "1" "K", true⟩)
        (calculatePubKey "1" "K") = "Válidas" := by
      simp [classifyCredential]
    have hR : classifyCredential (some ⟨calculatePubKey "1" "K", true⟩)
        (calculatePubKey "" "K") = "Inválidas - Chave Privada Incorreta" := by
      simp only [classifyCredential]
      rw [hempty, if_neg (fun hc => hne hc.symm)]
    rw [hdefL, hdefR, hL, hR]
    decide

/-- C5 (amended): `normalizePrivate_` canonicalization (uppercase, strip
whitespace and every character outside `A`-`Z`) is applied before hashing in
the SHA-256 validation path: raw secrets that agree after it always get the
same `sha256Hex` digest and the same `VALIDAR_CHAVES` verdict.  (The HMAC
recomputation path `processResponse_`/`calculatePubKey` hashes the trimmed raw
secret without this canonicalization; see the counterexample.) -/
theorem c5_normalization_invariance (r₁ r₂ : String)
    (h : normalizePrivate_ r₁ = normalizePrivate_ r₂) :
    sha256Hex r₁ = sha256Hex r₂ ∧
    ∀ keysMap pub, VALIDAR_CHAVES keysMap pub r₁ = VALIDAR_CHAVES keysMap pub r₂ := by
  refine ⟨sha256Hex_congr r₁ r₂ h, ?_⟩
  intro km pub
  unfold VALIDAR_CHAVES
  by_cases hp : jsTrim pub = ""
  · simp [hp]
  · have hs : sha256Hex (jsTrim r₁) = sha256Hex (jsTrim r₂) :=
      sha256Hex_congr _ _ (by rw [normPriv_jsTrim, normPriv_jsTrim, h])
    by_cases h1 : jsTrim r₁ = ""
    · by_cases h2 : jsTrim r₂ = ""
      · simp [h1, h2]
      · have hc2 : sha256Hex (jsTrim r₂) = "" := by
          rw [← hs, h1]; rfl
        simp [h1, h2, hp, hc2]
    · by_cases h2 : jsTrim r₂ = ""
      · have hc1 : sha256Hex (jsTrim r₁) = "" := by
          rw [hs, h2]; rfl
        simp [h1, h2, hp, hc1]
      · simp [h1, h2, hp, hs]

/-- Witness for C5 (amended): `"a b!"` and `"AB"` agree after canonicalization
and get the same digest and verdict. -/
theorem c5_normalization_invariance_witness :
    sha256Hex "a b!" = sha256Hex "AB" ∧
    ∀ keysMap pub, VALIDAR_CHAVES keysMap pub "a b!" = VALIDAR_CHAVES keysMap pub "AB" :=
  c5_normalization_invariance "a b!" "AB" (by decide)

/-- C9 counterexample: with the master key unset, `getMasterKey` does raise,
but `processResponse_` catches the error and still returns a written status —
the run continues with a per-row `Erro Interno` mark instead of aborting. -/
theorem c9_counterexample :
    getMasterKey none = Except.error
      "MK (Master Key) não configurada em ScriptProperties. Abortando." ∧
    processResponseStatus none "123456" "ABCDEF" [] =
      "Inválidas - Erro Interno (MK (Master Key) não configurada em ScriptProperties. Abortando.)" :=
  ⟨rfl, rfl⟩

/-- C9 (amended): with the master secret missing (unset or empty),
`getMasterKey` raises and never substitutes a default; `processResponse_`
catches the error and marks the submission
`Inválidas - Erro Interno (...)`, a status that is none of the four
credential-classification variants and in particular never `Válidas` — the
submission is not silently validated, but the error is contained per
submission rather than aborting the run. -/
theorem c9_missing_master_key (mkProp : Option String)
    (h : mkProp = none ∨ mkProp = some "") (idRaw privRaw : String)
    (snap : List (String × KeyRec)) :
    getMasterKey mkProp = Except.error
      "MK (Master Key) não configurada em ScriptProperties. Abortando." ∧
    (∀ k, getMasterKey mkProp ≠ Except.ok k) ∧
    processResponseStatus mkProp idRaw privRaw snap =
      "Inválidas - Erro Interno (MK (Master Key) não configurada em ScriptProperties. Abortando.)" ∧
    processResponseStatus mkProp idRaw privRaw snap ≠ "Válidas" ∧
    processResponseStatus mkProp idRaw privRaw snap ≠ "Inválidas - ID Incorreto" ∧
    processResponseStatus mkProp idRaw privRaw snap ≠ "Inválidas - Chave Privada Incorreta" ∧
    processResponseStatus mkProp idRaw privRaw snap ≠ "Inválidas - Chave Privada Inativada" := by
  have herr : getMasterKey mkProp = Except.error
      "MK (Master Key) não configurada em ScriptProperties. Abortando." := by
    rcases h with rfl | rfl
    · rfl
    · rfl
  have hst : processResponseStatus mkProp idRaw privRaw snap =
      "Inválidas - Erro Interno (MK (Master Key) não configurada em ScriptProperties. Abortando.)" := by
    rw [processResponseStatus, herr]
    rfl
  refine ⟨herr, fun k hk => by rw [herr] at hk; exact Except.noConfusion hk, hst, ?_, ?_, ?_, ?_⟩
  all_goals rw [hst]; decide

/-- Witness for C9 (amended) at the unset master key. -/
theorem c9_missing_master_key_witness :
    processResponseStatus none "123456" "XYZ" [] =
      "Inválidas - Erro Interno (MK (Master Key) não configurada em ScriptProperties. Abortando.)" :=
  (c9_missing_master_key none (Or.inl rfl) "123456" "XYZ" []).2.2.1

/-- C7: for three same-id submissions — #1 credential-valid and non-blank,
#2 blank, #3 credential-valid and non-blank — the final statuses are valid,
blank, repeated, and the sequence counters are 1, 0, 2. -/
theorem c7_three_submission_sequence :
    (generateValidationRows
      [⟨"t1", "111", "p", "Válidas", ["A"], ""⟩,
       ⟨"t2", "111", "p", "Válidas", [], ""⟩,
       ⟨"t3", "111", "p", "Válidas", ["B"], ""⟩]).map (fun o => (o.contador, o.finalStatus)) =
      [(1, "VÁLIDO - Credenciais Válidas - Voto Válido"),
       (0, "INVÁLIDO - Credenciais Válidas - Voto Branco"),
       (2, "INVÁLIDO - Credenciais Válidas - Voto Repetido")] := by decide

/-- C4 counterexample: after a first countable submission, a later blank
submission is classified `Voto Branco` and a later invalid-credential
submission keeps its credential status — neither is classified
`Voto Repetido` (duplicate), contradicting "every submission after the first
one receives duplicate regardless of its own status". -/
theorem c4_counterexample :
    (generateValidationRows
      [⟨"t1", "222", "p", "Válidas", ["A"], ""⟩,
       ⟨"t2", "222", "p", "Válidas", [], ""⟩,
       ⟨"t3", "222", "p", "Inválidas - ID Incorreto", ["B"], ""⟩]).map (fun o => o.finalStatus) =
      ["VÁLIDO - Credenciais Válidas - Voto Válido",
       "INVÁLIDO - Credenciais Válidas - Voto Branco",
       "INVÁLIDO - Credenciais Inválidas - ID Incorreto"] ∧
    "INVÁLIDO - Credenciais Válidas - Voto Branco" ≠
      "INVÁLIDO - Credenciais Válidas - Voto Repetido" ∧
    "INVÁLIDO - Credenciais Inválidas - ID Incorreto" ≠
      "INVÁLIDO - Credenciais Válidas - Voto Repetido" := by decide

/-- C4 (amended): for an arrival-ordered same-id sequence, the i-th final
status is `specFinalStatus` of the i-th row and the number of countable
(credential-valid, non-blank) rows before it: only the first countable row is
`valid-countable`, every later countable row is duplicate, while later blank
rows classify blank and later invalid-credential rows keep their credential
status. -/
theorem c4_first_countable_wins (rows : List RespRow) (u : String) (hu : u ≠ "")
    (hall : ∀ r ∈ rows, normalizeId (jsTrim r.idRaw) = u) (i : Nat) (hi : i < rows.length) :
    ((generateValidationRows rows)[i]?).map (fun o => o.finalStatus) =
      some (specFinalStatus (rows.get ⟨i, hi⟩)
        (((rows.take i).filter (fun r => decide (countableRow r))).length)) := by
  have hmap := genValGo_map_status u hu rows [] hall
  have hc0 : lookupCount ([] : List (String × Nat)) u = 0 := rfl
  rw [hc0] at hmap
  rw [← List.getElem?_map,
    show (generateValidationRows rows).map (fun o => o.finalStatus) = specValGo 0 rows
      from hmap]
  have hi' : i < (specValGo 0 rows).length := by rw [specValGo_length]; exact hi
  rw [List.getElem?_eq_getElem hi']
  congr 1
  have hget := specValGo_get rows 0 i hi
  rw [Nat.zero_add] at hget
  rw [← hget]
  rfl

/-- Witness for C4 (amended), at the sequence of the counterexample, index 2. -/
theorem c4_first_countable_wins_witness :
    ((generateValidationRows
      [⟨"t1", "222", "p", "Válidas", ["A"], ""⟩,
       ⟨"t2", "222", "p", "Válidas", [], ""⟩,
       ⟨"t3", "222", "p", "Inválidas - ID Incorreto", ["B"], ""⟩])[2]?).map
      (fun o => o.finalStatus) =
      some (specFinalStatus
        (([⟨"t1", "222", "p", "Válidas", ["A"], ""⟩,
           ⟨"t2", "222", "p", "Válidas", [], ""⟩,
           ⟨"t3", "222", "p", "Inválidas - ID Incorreto", ["B"], ""⟩] :
            List RespRow).get ⟨2, by decide⟩)
        ((([⟨"t1", "222", "p", "Válidas", ["A"], ""⟩,
            ⟨"t2", "222", "p", "Válidas", [], ""⟩,
            ⟨"t3", "222", "p", "Inválidas - ID Incorreto", ["B"], ""⟩] :
            List RespRow).take 2).filter (fun r => decide (countableRow r))).length) :=
  c4_first_countable_wins
    [⟨"t1", "222", "p", "Válidas", ["A"], ""⟩,
     ⟨"t2", "222", "p", "Válidas", [], ""⟩,
     ⟨"t3", "222", "p", "Inválidas - ID Incorreto", ["B"], ""⟩]
    "222" (by decide) (by decide) 2 (by decide)

/-- C2 counterexample: with configured maximum `N = 1` and one countable
ballot ranking A, B, C, the candidate at 0-based rank 2 ≥ N earns `-1` points
in `generateApuracaoAutomatica` — a negative amount, not zero. -/
theorem c2_counterexample :
    statPontos (execTally 1
      (execUniverse [⟨"VÁLIDO - Credenciais Válidas - Voto Válido", "A,\nB,\nC", ""⟩])
      [⟨"VÁLIDO - Credenciais Válidas - Voto Válido", "A,\nB,\nC", ""⟩]) "C" =
      some (-1) ∧
    ¬ statPontos (execTally 1
      (execUniverse [⟨"VÁLIDO - Credenciais Válidas - Voto Válido", "A,\nB,\nC", ""⟩])
      [⟨"VÁLIDO - Credenciais Válidas - Voto Válido", "A,\nB,\nC", ""⟩]) "C" =
      some 0 := by decide

/-- C2 (amended): in `generateApuracaoAutomatica` the candidate at 0-based
rank `i` of a deduplicated countable ballot earns exactly `N - i` points as a
signed value — positive for `i < N`, zero at `i = N`, negative for `i > N`
(reachable only when a configured maximum is below the ballot length); in the
scorecard functions (`BORDA_SCORECARD_BY_COLNAME`) every deduplicated scored
ballot is no longer than the frozen universe size `n`, so rank indices never
reach `N` there. -/
theorem c2_borda_signed_points (n : Nat) (stats : List (String × ExecStat))
    (lista : List String) (cand : String) (i : Nat) (hnd : lista.Nodup)
    (hi : i < lista.length) (hget : lista.get ⟨i, hi⟩ = cand) :
    statPontos (scoreExecBallot n stats lista) cand =
      (statPontos stats cand).map (fun v => v + ((n : Int) - (i : Int))) ∧
    (0 < (n : Int) - (i : Int) ↔ i < n) ∧
    ((n : Int) - (i : Int) = 0 ↔ i = n) ∧
    ((n : Int) - (i : Int) < 0 ↔ n < i) ∧
    (∀ intervalo valores cel, cel ∈ valores →
      (scorecardLista (resolveUniverse intervalo valores).1
          (resolveUniverse intervalo valores).2 cel).length ≤
        (resolveUniverse intervalo valores).1.length) := by
  refine ⟨?_, by omega, by omega, by omega, ?_⟩
  · have h := scoreExecGo_get n lista hnd i hi 0 stats
    rw [hget] at h
    rw [scoreExecBallot, h]
    congr 1
    funext v
    push_cast
    ring
  · intro iv vals cel hcel
    by_cases hof : (buildOfficialSet (iv.getD [])).length > 0
    · have hres : resolveUniverse iv vals = (buildOfficialSet (iv.getD []), true) := by
        unfold resolveUniverse
        rw [if_pos hof]
      rw [hres]
      refine nodup_subset_length _ _ (dedupeAux_nodup [] _) ?_
      intro x hx
      have hx' := (dedupeAux_mem [] _ x).mp hx
      have hmem : x ∈ (parseList cel).filter (· ∈ buildOfficialSet (iv.getD [])) := by
        simpa [scorecardLista] using hx'.1
      simpa using List.of_mem_filter hmem
    · have hres : resolveUniverse iv vals =
          (dedupePreserve ((vals.map parseList).flatten), false) := by
        unfold resolveUniverse
        rw [if_neg hof]
      rw [hres]
      refine nodup_subset_length _ _ (dedupeAux_nodup [] _) ?_
      intro x hx
      have hx' := (dedupeAux_mem [] _ x).mp hx
      have hmem : x ∈ parseList cel := by
        simpa [scorecardLista] using hx'.1
      rw [dedupePreserve, dedupeAux_mem]
      refine ⟨List.mem_flatten.mpr ⟨parseList cel, List.mem_map.mpr ⟨cel, hcel, rfl⟩, hmem⟩,
        List.not_mem_nil x⟩

/-- Witness for C2 (amended): `N = 1`, ballot A, B, C, candidate C at rank 2. -/
theorem c2_borda_signed_points_witness :
    statPontos (scoreExecBallot 1 (initExecStats ["A", "B", "C"] 1) ["A", "B", "C"]) "C" =
      (statPontos (initExecStats ["A", "B", "C"] 1) "C").map
        (fun v => v + (((1 : Nat) : Int) - ((2 : Nat) : Int))) ∧
    (0 < ((1 : Nat) : Int) - ((2 : Nat) : Int) ↔ 2 < 1) ∧
    (((1 : Nat) : Int) - ((2 : Nat) : Int) = 0 ↔ 2 = 1) ∧
    (((1 : Nat) : Int) - ((2 : Nat) : Int) < 0 ↔ 1 < 2) ∧
    (∀ intervalo valores cel, cel ∈ valores →
      (scorecardLista (resolveUniverse intervalo valores).1
          (resolveUniverse intervalo valores).2 cel).length ≤
        (resolveUniverse intervalo valores).1.length) :=
  c2_borda_signed_points 1 (initExecStats ["A", "B", "C"] 1) ["A", "B", "C"] "C" 2
    (by decide) (by decide) (by decide)

/-- C3: Planilha.js's fiscal tally does not deduplicate within a ballot
(despite the name `fiscalVotosDedupe`): for the ballots X,X,Y then X,Y it
yields X = 3, not the claimed X = 2; the companion custom function
`FISCAL_SCORECARD_BY_COLNAME` does deduplicate and yields X = 2, Y = 2. -/
theorem c3_fiscal_duplicates_counted :
    fiscalTally
      (fiscalUniverse
        [⟨"VÁLIDO - Credenciais Válidas - Voto Válido", "", "X,\nX,\nY"⟩,
         ⟨"VÁLIDO - Credenciais Válidas - Voto Válido", "", "X,\nY"⟩])
      [⟨"VÁLIDO - Credenciais Válidas - Voto Válido", "", "X,\nX,\nY"⟩,
       ⟨"VÁLIDO - Credenciais Válidas - Voto Válido", "", "X,\nY"⟩] = [("X", 3), ("Y", 2)] ∧
    fiscalTally (fiscalUniverse (tallyInput
        [⟨"t1", "333", "p", "Válidas", [], "X, X, Y"⟩,
         ⟨"t2", "334", "p", "Válidas", [], "X, Y"⟩]))
      (tallyInput
        [⟨"t1", "333", "p", "Válidas", [], "X, X, Y"⟩,
         ⟨"t2", "334", "p", "Válidas", [], "X, Y"⟩]) = [("X", 3), ("Y", 2)] ∧
    fiscalScorecardStats ["X,X,Y", "X,Y"] none = [("X", 2), ("Y", 2)] ∧
    (3 : Nat) ≠ 2 := by decide

/-- C8: when no submission is countable, `generateApuracaoAutomatica` applied
to the rows produced by `generateValidationSheet` returns the `writeEmpty`
placeholder table — titles and column headers only, exactly 5 rows, no
candidate rows — and, the embedding being total, without raising an error. -/
theorem c8_empty_countable (cfg : Nat) (resp : List RespRow)
    (hnone : ∀ o ∈ generateValidationRows resp, o.finalStatus ≠ APURACAO_STATUS) :
    generateApuracao cfg (some (tallyInput resp)) =
      writeEmptyTable (if tallyInput resp = [] then (if cfg > 0 then cfg else 3)
        else if cfg = 0 then 0 else cfg) ∧
    ∀ nPos : Nat, (writeEmptyTable nPos).length = 5 := by
  constructor
  · have hcells : ∀ t ∈ tallyInput resp, t.execRaw = "" ∧ t.fiscalRaw = "" := by
      intro t ht
      rcases List.mem_map.mp ht with ⟨o, ho, rfl⟩
      exact genValGo_blank_cells resp [] o ho (hnone o ho)
    by_cases hnil : tallyInput resp = []
    · rw [if_pos hnil, hnil]
      rfl
    · rw [if_neg hnil]
      have hexec : execUniverse (tallyInput resp) = [] := by
        unfold execUniverse
        have hmap : (tallyInput resp).map (fun r => parseVotos r.execRaw) =
            (tallyInput resp).map (fun _ => ([] : List String)) := by
          refine List.map_congr_left ?_
          intro t ht
          rw [(hcells t ht).1]
          rfl
        rw [hmap]
        have hflat : ((tallyInput resp).map (fun _ => ([] : List String))).flatten = [] := by
          simp
        rw [hflat]
        rfl
      have hfisc : fiscalUniverse (tallyInput resp) = [] := by
        unfold fiscalUniverse
        have hmap : (tallyInput resp).map (fun r => parseVotos r.fiscalRaw) =
            (tallyInput resp).map (fun _ => ([] : List String)) := by
          refine List.map_congr_left ?_
          intro t ht
          rw [(hcells t ht).2]
          rfl
        rw [hmap]
        have hflat : ((tallyInput resp).map (fun _ => ([] : List String))).flatten = [] := by
          simp
        rw [hflat]
        rfl
      have hlen0 : ¬((tallyInput resp).length = 0) := by
        simpa [List.length_eq_zero] using hnil
      rw [generateApuracao]
      simp only []
      rw [if_neg hlen0]
      simp only [hexec, hfisc, List.length_nil]
      rw [if_pos ⟨trivial, trivial⟩]
  · intro nPos
    rfl

/-- Witness for C8 at one non-countable submission and configured maximum 2. -/
theorem c8_empty_countable_witness :
    generateApuracao 2 (some (tallyInput
        [⟨"t", "444", "p", "Inválidas - ID Incorreto", ["A"], "B"⟩])) =
      writeEmptyTable
        (if tallyInput [⟨"t", "444", "p", "Inválidas - ID Incorreto", ["A"], "B"⟩] = []
         then (if 2 > 0 then 2 else 3) else if 2 = 0 then 0 else 2) ∧
    ∀ nPos : Nat, (writeEmptyTable nPos).length = 5 :=
  c8_empty_countable 2 [⟨"t", "444", "p", "Inválidas - ID Incorreto", ["A"], "B"⟩]
    (by decide)

/-- C10: `dedupePreserve` returns a duplicate-free subsequence of its input
containing exactly the input's elements; it keeps the first occurrence of each
element (the head is kept and later copies of it are dropped, recursively), and
it is idempotent. -/
theorem c10_dedupePreserve_spec (l : List String) (x a : String) :
    (dedupePreserve l).Nodup ∧
    (dedupePreserve l).Sublist l ∧
    (x ∈ dedupePreserve l ↔ x ∈ l) ∧
    dedupePreserve (a :: l) = a :: dedupePreserve (l.filter (· ≠ a)) ∧
    dedupePreserve (dedupePreserve l) = dedupePreserve l := by
  refine ⟨dedupeAux_nodup [] l, dedupeAux_sublist [] l, ?_, ?_, ?_⟩
  · rw [dedupePreserve, dedupeAux_mem]
    simp
  · show dedupeAux [] (a :: l) = _
    simp only [dedupeAux, List.not_mem_nil, if_neg (List.not_mem_nil a)]
    exact congrArg (a :: ·) (dedupeAux_cons_filter a [] l)
  · exact dedupeAux_of_nodup [] (dedupePreserve l) (dedupeAux_nodup [] l) (by simp)

end Claims
